import Mathlib

/-!
Shallow embedding of the cherrypie window-rule daemon (Rust sources under
`src/`), together with theorems checking the natural-language specification
against it.

Conventions of the embedding:
* Rust `f64` values that the program treats as exact real quantities
  (percentages, opacity) are modelled as `ℚ`; the `as u32` / `as i32`
  casts, which truncate toward zero, are modelled by `truncQ`.
* Rust `i32` division truncates toward zero, so it is modelled by
  `Int.tdiv`, not by Lean's `/` on `ℤ`.
* The external `regex` crate is abstracted as `Regex`, a wrapper around a
  search predicate `isMatch : String → Bool` (the crate's `Regex::is_match`,
  an unanchored, case-sensitive search). Compilation of a textual pattern
  (`Regex::new`) is abstracted as a parameter `String → Option Regex`.
* Rust standard-library numeric parsing (`str::parse`) is abstracted as the
  `Parsers` record of partial parsing functions.
* X11 protocol writes are modelled as a trace of `Request` values in the
  order the code issues them; stderr logging in dry-run mode is modelled as
  a trace of structured `LogEntry` values.
-/

namespace Cherrypie

/-- Abstraction of a compiled `regex::Regex`: only its match predicate
(`Regex::is_match`, a search that may match anywhere in the input) is
relevant to the embedded code. -/
structure Regex where
  isMatch : String → Bool

/-- ASCII lower-casing of a single character, as used by Rust's
`eq_ignore_ascii_case`. -/
def asciiLowerChar (c : Char) : Char :=
  if 65 ≤ c.toNat ∧ c.toNat ≤ 90 then Char.ofNat (c.toNat + 32) else c

/-- Rust `str::eq_ignore_ascii_case`: equality after ASCII lower-casing
both sides. -/
def eqIgnoreAsciiCase (a b : String) : Bool :=
  a.data.map asciiLowerChar == b.data.map asciiLowerChar

/-- Mirror of `MonitorTarget` in src/rules.rs. -/
inductive MonitorTarget where
  | index (i : ℕ)
  | name (n : String)
  deriving DecidableEq, Repr

/-- Mirror of `NamedPosition` in src/rules.rs. -/
inductive NamedPosition where
  | center | topLeft | topRight | bottomLeft | bottomRight
  | left | right | top | bottom
  deriving DecidableEq, Repr

/-- Mirror of `DimensionVal` in src/rules.rs (`Pixels(i32)` or
`Percent(f64)`, the percent already divided by 100). -/
inductive DimensionVal where
  | pixels (px : ℤ)
  | percent (pct : ℚ)
  deriving DecidableEq, Repr

/-- Mirror of `PositionTarget` in src/rules.rs. -/
inductive PositionTarget where
  | absolute (x y : ℤ)
  | named (p : NamedPosition)
  | flexible (x y : DimensionVal)
  deriving DecidableEq, Repr

/-- Mirror of `SizeTarget` in src/rules.rs. -/
inductive SizeTarget where
  | absolute (w h : ℕ)
  | flexible (w h : DimensionVal)
  deriving DecidableEq, Repr

/-- Mirror of `CompiledRule` in src/rules.rs. The Rust field `class` is a
Lean keyword and is rendered as `cls`. -/
structure CompiledRule where
  cls : Option Regex
  title : Option Regex
  role : Option Regex
  process : Option Regex
  windowType : Option String
  workspace : Option ℕ
  monitor : Option MonitorTarget
  position : Option PositionTarget
  size : Option SizeTarget
  maximize : Option Bool
  fullscreen : Option Bool
  pin : Option Bool
  minimize : Option Bool
  shade : Option Bool
  above : Option Bool
  below : Option Bool
  decorate : Option Bool
  focus : Option Bool
  opacity : Option ℚ

/-- Mirror of `CompiledRule::matches` in src/rules.rs lines 103–120: each
present matcher must match (`Option::is_none_or`), the window type by
`eq_ignore_ascii_case`, and the result is the conjunction. -/
def CompiledRule.matches (r : CompiledRule)
    (cls title role process windowType : String) : Bool :=
  let classOk := r.cls.all fun re => re.isMatch cls
  let titleOk := r.title.all fun re => re.isMatch title
  let roleOk := r.role.all fun re => re.isMatch role
  let processOk := r.process.all fun re => re.isMatch process
  let typeOk := r.windowType.all fun t => eqIgnoreAsciiCase t windowType
  classOk && titleOk && roleOk && processOk && typeOk

/-- Mirror of `MonitorGeometry` in src/backend/x11.rs. -/
structure MonitorGeometry where
  name : String
  x : ℤ
  y : ℤ
  width : ℕ
  height : ℕ
  deriving DecidableEq, Repr

/-- Truncation of a rational toward zero, the semantics of Rust's `as i32`
and `as u32` casts from `f64` (for in-range values). -/
def truncQ (q : ℚ) : ℤ :=
  Int.tdiv q.num q.den

/-- Mirror of `resolve_dim` in src/backend/x11.rs lines 679–684:
pixel values verbatim, percentages multiplied by the total and truncated
toward zero (`as i32`). -/
def resolveDim (val : DimensionVal) (total : ℤ) : ℤ :=
  match val with
  | .pixels px => px
  | .percent pct => truncQ ((total : ℚ) * pct)

/-- Window geometry in root coordinates as returned by
`get_window_geometry`: `(x, y, width, height)`. -/
abbrev Geo := ℤ × ℤ × ℕ × ℕ

/-- Containment test from the loop in `resolve_monitor` (src/backend/x11.rs
lines 446–454): the center point lies inside the monitor's rectangle. -/
def monitorContains (m : MonitorGeometry) (cx cy : ℤ) : Bool :=
  cx ≥ m.x && cx < m.x + (m.width : ℤ) && cy ≥ m.y && cy < m.y + (m.height : ℤ)

/-- Synthetic monitor produced by `resolve_monitor` when no monitor was
discovered (src/backend/x11.rs lines 460–466). -/
def defaultMonitor : MonitorGeometry :=
  { name := "", x := 0, y := 0, width := 1920, height := 1080 }

/-- Fallback portion of `resolve_monitor` (src/backend/x11.rs lines
442–466): the first monitor containing the window's center point, else the
first monitor, else the synthetic 1920×1080 default. -/
def resolveMonitorFallback (monitors : List MonitorGeometry)
    (geo : Option Geo) : MonitorGeometry :=
  let byCenter : Option MonitorGeometry :=
    match geo with
    | some (gx, gy, gw, gh) =>
        let cx := gx + Int.tdiv (gw : ℤ) 2
        let cy := gy + Int.tdiv (gh : ℤ) 2
        monitors.find? fun m => monitorContains m cx cy
    | none => none
  match byCenter with
  | some m => m
  | none => (monitors.head?).getD defaultMonitor

/-- Mirror of `X11Backend::resolve_monitor` (src/backend/x11.rs lines
424–467): a valid explicit index or a matching explicit name returns that
monitor; otherwise the fallback chain runs. -/
def resolveMonitor (monitors : List MonitorGeometry)
    (target : Option MonitorTarget) (geo : Option Geo) : MonitorGeometry :=
  match target with
  | some (.index i) =>
      match monitors[i]? with
      | some m => m
      | none => resolveMonitorFallback monitors geo
  | some (.name n) =>
      match monitors.find? fun m => m.name == n with
      | some m => m
      | none => resolveMonitorFallback monitors geo
  | none => resolveMonitorFallback monitors geo

/-- Mirror of `X11Backend::resolve_position` (src/backend/x11.rs lines
471–504). Rust `i32` division truncates toward zero, hence `Int.tdiv`. -/
def resolvePosition (pos : PositionTarget) (monitor : MonitorGeometry)
    (winSize : Option (ℕ × ℕ)) : ℤ × ℤ :=
  let ws := winSize.getD (0, 0)
  let mx := monitor.x
  let my := monitor.y
  let mw : ℤ := (monitor.width : ℤ)
  let mh : ℤ := (monitor.height : ℤ)
  let ww : ℤ := (ws.1 : ℤ)
  let wh : ℤ := (ws.2 : ℤ)
  match pos with
  | .absolute x y => (x, y)
  | .named anchor =>
      match anchor with
      | .center => (mx + Int.tdiv (mw - ww) 2, my + Int.tdiv (mh - wh) 2)
      | .topLeft => (mx, my)
      | .topRight => (mx + mw - ww, my)
      | .bottomLeft => (mx, my + mh - wh)
      | .bottomRight => (mx + mw - ww, my + mh - wh)
      | .left => (mx, my + Int.tdiv (mh - wh) 2)
      | .right => (mx + mw - ww, my + Int.tdiv (mh - wh) 2)
      | .top => (mx + Int.tdiv (mw - ww) 2, my)
      | .bottom => (mx + Int.tdiv (mw - ww) 2, my + mh - wh)
  | .flexible xv yv => (resolveDim xv mw + mx, resolveDim yv mh + my)

/-- Mirror of `X11Backend::resolve_size` (src/backend/x11.rs lines
508–517): absolute sizes verbatim, flexible sizes resolved per axis with a
minimum of 1 (`.max(1) as u32`). -/
def resolveSize (sz : SizeTarget) (monitor : MonitorGeometry) : ℕ × ℕ :=
  match sz with
  | .absolute w h => (w, h)
  | .flexible wv hv =>
      ((max (resolveDim wv (monitor.width : ℤ)) 1).toNat,
       (max (resolveDim hv (monitor.height : ℤ)) 1).toNat)

/-- The 32-bit value stored for an opacity rule (src/backend/x11.rs line
409): `(opacity.clamp(0.0, 1.0) * 0xFFFFFFFF as f64) as u32`. Rust's
`clamp(0.0, 1.0)` is `min (max v 0) 1` and the `as u32` cast truncates
toward zero. -/
def opacityStored (v : ℚ) : ℕ :=
  (truncQ (min (max v 0) 1 * 4294967295)).toNat

/-- EWMH `_NET_WM_STATE_*` atoms that `apply_rule` passes in state client
messages. -/
inductive StateAtom where
  | maximizedVert | maximizedHorz | above | below | sticky | fullscreen | shaded
  deriving DecidableEq, Repr

/-- One protocol write issued by `apply_rule`, in issue order:
`configure_window` size / position requests, `_NET_WM_DESKTOP` client
messages, `_NET_WM_STATE` client messages, `WM_CHANGE_STATE` client
messages, `_NET_ACTIVE_WINDOW` activation, `_MOTIF_WM_HINTS` decoration
property writes, and `_NET_WM_WINDOW_OPACITY` property writes. -/
inductive Request where
  | configureSize (w h : ℕ)
  | configurePos (x y : ℤ)
  | netWmDesktop (ws : ℕ)
  | wmState (action : ℕ) (p1 : StateAtom) (p2 : Option StateAtom)
  | wmChangeState (st : ℕ)
  | activeWindow
  | motifHints (decorations : ℕ)
  | opacityProp (value : ℕ)
  deriving DecidableEq, Repr

/-- Mirror of `X11Backend::apply_rule` (src/backend/x11.rs lines 320–420)
as the ordered trace of protocol writes it issues for one window. -/
def applyRule (rule : CompiledRule) (monitors : List MonitorGeometry)
    (geo : Option Geo) : List Request :=
  let targetMonitor := resolveMonitor monitors rule.monitor geo
  let resolvedSize := rule.size.map fun sz => resolveSize sz targetMonitor
  (match resolvedSize with
   | some (w, h) => [Request.configureSize w h]
   | none => []) ++
  (match rule.position with
   | some pos =>
       let winSize := match resolvedSize with
         | some s => some s
         | none => geo.map fun g => (g.2.2.1, g.2.2.2)
       let p := resolvePosition pos targetMonitor winSize
       [Request.configurePos p.1 p.2]
   | none => []) ++
  (match rule.workspace with
   | some ws => [Request.netWmDesktop ws]
   | none => []) ++
  (if rule.maximize = some true then
     [Request.wmState 1 .maximizedVert (some .maximizedHorz)] else []) ++
  (if rule.fullscreen = some true then
     [Request.wmState 1 .fullscreen none] else []) ++
  (if rule.pin = some true then
     [Request.netWmDesktop 4294967295, Request.wmState 1 .sticky none] else []) ++
  (if rule.minimize = some true then [Request.wmChangeState 3] else []) ++
  (if rule.shade = some true then [Request.wmState 1 .shaded none] else []) ++
  (if rule.above = some true then [Request.wmState 1 .above none] else []) ++
  (if rule.below = some true then [Request.wmState 1 .below none] else []) ++
  (if rule.decorate = some false then [Request.motifHints 0] else []) ++
  (if rule.decorate = some true then [Request.motifHints 1] else []) ++
  (if rule.focus = some true then [Request.activeWindow] else []) ++
  (match rule.opacity with
   | some v => [Request.opacityProp (opacityStored v)]
   | none => [])

/-- One structured line of the dry-run log produced by `log_actions`
(src/backend/x11.rs lines 553–600). The position and size entries carry
the rule's target values (logged with `{:?}`), exactly as the code prints
them. -/
inductive LogEntry where
  | monitor (t : MonitorTarget)
  | position (p : PositionTarget)
  | size (s : SizeTarget)
  | workspace (ws : ℕ)
  | maximize | fullscreen | pin | minimize | shade | above | below
  | decorate (d : Bool)
  | focus
  | opacity (v : ℚ)
  deriving DecidableEq, Repr

/-- Mirror of `X11Backend::log_actions` (src/backend/x11.rs lines 553–600)
as the ordered trace of structured log lines. -/
def logActions (rule : CompiledRule) : List LogEntry :=
  (match rule.monitor with
   | some t => [LogEntry.monitor t]
   | none => []) ++
  (match rule.position with
   | some p => [LogEntry.position p]
   | none => []) ++
  (match rule.size with
   | some s => [LogEntry.size s]
   | none => []) ++
  (match rule.workspace with
   | some ws => [LogEntry.workspace ws]
   | none => []) ++
  (if rule.maximize = some true then [LogEntry.maximize] else []) ++
  (if rule.fullscreen = some true then [LogEntry.fullscreen] else []) ++
  (if rule.pin = some true then [LogEntry.pin] else []) ++
  (if rule.minimize = some true then [LogEntry.minimize] else []) ++
  (if rule.shade = some true then [LogEntry.shade] else []) ++
  (if rule.above = some true then [LogEntry.above] else []) ++
  (if rule.below = some true then [LogEntry.below] else []) ++
  (match rule.decorate with
   | some d => [LogEntry.decorate d]
   | none => []) ++
  (if rule.focus = some true then [LogEntry.focus] else []) ++
  (match rule.opacity with
   | some v => [LogEntry.opacity v]
   | none => [])

/-- The per-rule body of `X11Backend::handle_new_window` (src/backend/x11.rs
lines 158–180): if the rule matches the window's five attributes, live mode
applies it (protocol writes) and dry-run mode logs it instead. Returns the
pair (protocol writes, dry-run log lines). -/
def handleWindowRule (rule : CompiledRule)
    (cls title role process windowType : String)
    (monitors : List MonitorGeometry) (geo : Option Geo)
    (dryRun : Bool) : List Request × List LogEntry :=
  if rule.matches cls title role process windowType then
    if dryRun then ([], logActions rule)
    else (applyRule rule monitors geo, [])
  else ([], [])

/-- Session-controller state owned by `X11Backend` (src/backend/x11.rs
lines 64–66): the last client-list snapshot, the append-only handled list,
and the startup backlog. Window handles are `ℕ` (X11 `u32` ids). -/
structure SessionState where
  knownClients : List ℕ
  handled : List ℕ
  pendingStartup : List ℕ
  deriving DecidableEq, Repr

/-- One iteration of the new-window loop in `process_events`
(src/backend/x11.rs lines 147–152): dispatch `w` and push it onto
`handled` when it is in neither `known` nor the current `handled`.
The accumulator carries (handled, dispatched so far). -/
def liveStep (known : List ℕ) (acc : List ℕ × List ℕ) (w : ℕ) :
    List ℕ × List ℕ :=
  if !(known.contains w) && !(acc.1.contains w) then
    (acc.1 ++ [w], acc.2 ++ [w])
  else acc

/-- Mirror of `X11Backend::process_events` (src/backend/x11.rs lines
119–156): drain and dispatch the startup backlog into `handled`; then, if
the drained X11 events signalled a `_NET_CLIENT_LIST` change, scan the
fresh list `current` for windows in neither `known_clients` nor `handled`,
dispatch them, and replace `known_clients` with `current`. Returns the new
state and the list of windows dispatched through rule matching, in
dispatch order. -/
def processEvents (s : SessionState) (clientListChanged : Bool)
    (current : List ℕ) : SessionState × List ℕ :=
  let startup := s.pendingStartup
  let handled1 := s.handled ++ startup
  if clientListChanged then
    let r := current.foldl (liveStep s.knownClients) (handled1, [])
    ({ knownClients := current, handled := r.1, pendingStartup := [] },
     startup ++ r.2)
  else
    ({ knownClients := s.knownClients, handled := handled1,
       pendingStartup := [] }, startup)

/-- A whole run of event-processing passes: each step is (whether the
client list changed, the client list fetched in that case). Returns the
final state and the concatenation of all dispatched windows. -/
def runEvents (s : SessionState) :
    List (Bool × List ℕ) → SessionState × List ℕ
  | [] => (s, [])
  | step :: rest =>
      let r1 := processEvents s step.1 step.2
      let r2 := runEvents r1.1 rest
      (r2.1, r1.2 ++ r2.2)

/-- Mirror of `MonitorValue` in src/config.rs. -/
inductive MonitorValue where
  | index (i : ℕ)
  | name (n : String)
  deriving DecidableEq, Repr

/-- Mirror of `PositionValue` in src/config.rs: a named anchor string,
absolute pixel coordinates, or a pair of dimension strings. -/
inductive PositionValue where
  | named (s : String)
  | absolute (x y : ℤ)
  | flexible (x y : String)
  deriving DecidableEq, Repr

/-- Mirror of `SizeValue` in src/config.rs. -/
inductive SizeValue where
  | absolute (w h : ℕ)
  | flexible (w h : String)
  deriving DecidableEq, Repr

/-- Mirror of `Rule` in src/config.rs (the deserialized, not yet compiled
rule). The Rust field `class` is rendered as `cls`. -/
structure Rule where
  cls : Option String
  title : Option String
  role : Option String
  process : Option String
  windowType : Option String
  workspace : Option ℕ
  monitor : Option MonitorValue
  position : Option PositionValue
  size : Option SizeValue
  maximize : Option Bool
  fullscreen : Option Bool
  pin : Option Bool
  minimize : Option Bool
  shade : Option Bool
  above : Option Bool
  below : Option Bool
  decorate : Option Bool
  focus : Option Bool
  opacity : Option ℚ
  deriving Repr

/-- Mirror of `Config` in src/config.rs. -/
structure Config where
  rule : List Rule
  deriving Repr

/-- Abstraction of the Rust standard library's numeric string parsing
(`str::parse::<f64>`, `::<i64>`, `::<i32>`): each is a partial function
returning `none` exactly when Rust's parse would return `Err`. -/
structure Parsers where
  parseF64 : String → Option ℚ
  parseI64 : String → Option ℤ
  parseI32 : String → Option ℤ

/-- Rust `str::strip_suffix('%')`: the string without its trailing `%`
when it has one. -/
def stripPercent (s : String) : Option String :=
  if s.endsWith "%" then some (s.dropRight 1) else none

/-- Mirror of `parse_dimension` in src/rules.rs lines 167–177: a trailing
`%` makes a percent value (divided by 100), otherwise an `i32` pixel
value. -/
def parseDimension (P : Parsers) (s : String) : Except String DimensionVal :=
  match stripPercent s with
  | some pct =>
      match P.parseF64 pct with
      | some v => .ok (.percent (v / 100))
      | none => .error ("invalid percentage '" ++ s ++ "'")
  | none =>
      match P.parseI32 s with
      | some v => .ok (.pixels v)
      | none => .error ("invalid dimension '" ++ s ++ "'")

/-- Mirror of `NAMED_POSITIONS` in src/config.rs lines 128–138. -/
def namedPositions : List String :=
  ["center", "top-left", "top-right", "bottom-left", "bottom-right",
   "left", "right", "top", "bottom"]

/-- Mirror of `validate_dimension_string` in src/config.rs lines 174–191. -/
def validateDimensionString (P : Parsers) (s : String) (ruleIdx : ℕ)
    (field : String) (axis : ℕ) : Except String Unit :=
  let axisName := if axis = 0 then "x/width" else "y/height"
  match stripPercent s with
  | some pct =>
      match P.parseF64 pct with
      | some _ => .ok ()
      | none => .error ("rule[" ++ toString ruleIdx ++ "]: invalid " ++ field
          ++ " " ++ axisName ++ " percentage '" ++ s ++ "'")
  | none =>
      match P.parseI64 s with
      | some _ => .ok ()
      | none => .error ("rule[" ++ toString ruleIdx ++ "]: invalid " ++ field
          ++ " " ++ axisName ++ " value '" ++ s ++ "'")

/-- Mirror of `validate_position` in src/config.rs lines 140–160. -/
def validatePosition (P : Parsers) (pos : PositionValue) (ruleIdx : ℕ) :
    Except String Unit :=
  match pos with
  | .named name =>
      if namedPositions.contains name then .ok ()
      else .error ("rule[" ++ toString ruleIdx ++ "]: invalid position '"
          ++ name ++ "' (expected one of: "
          ++ String.intercalate ", " namedPositions ++ ")")
  | .absolute _ _ => .ok ()
  | .flexible px py => do
      validateDimensionString P px ruleIdx "position" 0
      validateDimensionString P py ruleIdx "position" 1

/-- Mirror of `validate_size` in src/config.rs lines 162–172. -/
def validateSize (P : Parsers) (sz : SizeValue) (ruleIdx : ℕ) :
    Except String Unit :=
  match sz with
  | .absolute _ _ => .ok ()
  | .flexible pw ph => do
      validateDimensionString P pw ruleIdx "size" 0
      validateDimensionString P ph ruleIdx "size" 1

/-- Predicate for the no-matcher check in `load` (src/config.rs lines
105–110): all five matcher fields absent. -/
def Rule.noMatcher (r : Rule) : Bool :=
  r.cls.isNone && r.title.isNone && r.role.isNone && r.process.isNone
    && r.windowType.isNone

/-- The validation loop of `load` in src/config.rs lines 104–123, over the
enumerated rule list. -/
def validateRules (P : Parsers) : List (ℕ × Rule) → Except String Unit
  | [] => .ok ()
  | (i, r) :: rest =>
      if r.noMatcher then
        .error ("rule[" ++ toString i
            ++ "]: no matcher (need class, title, role, process, or type)")
      else do
        (match r.position with
         | some pos => validatePosition P pos i
         | none => .ok ())
        (match r.size with
         | some sz => validateSize P sz i
         | none => .ok ())
        validateRules P rest

/-- Mirror of `load` in src/config.rs lines 95–126. Reading the file and
parsing its TOML text are external effects, abstracted as the already
computed `readParse` result; the validation loop is embedded faithfully. -/
def load (P : Parsers) (readParse : Except String Config) :
    Except String Config := do
  let cfg ← readParse
  validateRules P cfg.rule.enum
  pure cfg

/-- Mirror of the `compile_pat` closure in `CompiledRule::compile`
(src/rules.rs lines 70–77), with `Regex::new` abstracted as `rx`. -/
def compilePat (rx : String → Option Regex) (pat : Option String) :
    Except String (Option Regex) :=
  match pat with
  | some s =>
      match rx s with
      | some re => .ok (some re)
      | none => .error ("bad regex '" ++ s ++ "'")
  | none => .ok none

/-- Mirror of `compile_monitor` in src/rules.rs lines 123–128. -/
def compileMonitor (val : MonitorValue) : MonitorTarget :=
  match val with
  | .index i => .index i
  | .name n => .name n

/-- Mirror of `compile_position` in src/rules.rs lines 130–154. -/
def compilePosition (P : Parsers) (val : PositionValue) :
    Except String PositionTarget :=
  match val with
  | .named name =>
      match name with
      | "center" => .ok (.named .center)
      | "top-left" => .ok (.named .topLeft)
      | "top-right" => .ok (.named .topRight)
      | "bottom-left" => .ok (.named .bottomLeft)
      | "bottom-right" => .ok (.named .bottomRight)
      | "left" => .ok (.named .left)
      | "right" => .ok (.named .right)
      | "top" => .ok (.named .top)
      | "bottom" => .ok (.named .bottom)
      | _ => .error ("unknown position '" ++ name ++ "'")
  | .absolute x y => .ok (.absolute x y)
  | .flexible px py => do
      let x ← parseDimension P px
      let y ← parseDimension P py
      pure (.flexible x y)

/-- Mirror of `compile_size` in src/rules.rs lines 156–165. -/
def compileSize (P : Parsers) (val : SizeValue) : Except String SizeTarget :=
  match val with
  | .absolute w h => .ok (.absolute w h)
  | .flexible pw ph => do
      let w ← parseDimension P pw
      let h ← parseDimension P ph
      pure (.flexible w h)

/-- Mirror of `CompiledRule::compile` (src/rules.rs lines 69–101). -/
def compileRule (rx : String → Option Regex) (P : Parsers) (r : Rule) :
    Except String CompiledRule := do
  let cls ← compilePat rx r.cls
  let title ← compilePat rx r.title
  let role ← compilePat rx r.role
  let process ← compilePat rx r.process
  let position ← match r.position with
    | some p => (compilePosition P p).map some
    | none => pure none
  let size ← match r.size with
    | some s => (compileSize P s).map some
    | none => pure none
  pure {
    cls := cls, title := title, role := role, process := process,
    windowType := r.windowType,
    workspace := r.workspace,
    monitor := r.monitor.map compileMonitor,
    position := position, size := size,
    maximize := r.maximize, fullscreen := r.fullscreen, pin := r.pin,
    minimize := r.minimize, shade := r.shade, above := r.above,
    below := r.below, decorate := r.decorate, focus := r.focus,
    opacity := r.opacity }

/-- Helper for `compile` (src/rules.rs lines 179–186): enumerate, compile
each rule, prefix errors with the rule index, first error wins. -/
def compileRules (rx : String → Option Regex) (P : Parsers) :
    List (ℕ × Rule) → Except String (List CompiledRule)
  | [] => .ok []
  | (i, r) :: rest =>
      match compileRule rx P r with
      | .error e => .error ("rule[" ++ toString i ++ "]: " ++ e)
      | .ok c =>
          match compileRules rx P rest with
          | .error e => .error e
          | .ok cs => .ok (c :: cs)

/-- Mirror of `compile` in src/rules.rs lines 179–186. -/
def compile (rx : String → Option Regex) (P : Parsers) (cfg : Config) :
    Except String (List CompiledRule) :=
  compileRules rx P cfg.rule.enum

/-- Mirror of `load_rules` in src/daemon.rs lines 128–143: load and
validate the configuration, then compile it; any error yields `none`. -/
def loadRules (rx : String → Option Regex) (P : Parsers)
    (readParse : Except String Config) : Option (List CompiledRule) :=
  match load P readParse with
  | .ok cfg =>
      match compile rx P cfg with
      | .ok compiled => some compiled
      | .error _ => none
  | .error _ => none

/-- The reload arm of `event_loop` in src/daemon.rs lines 106–119: a
successful `load_rules` replaces the active rule set in one assignment; a
failed one leaves it untouched. -/
def reloadRules (rules : List CompiledRule)
    (loaded : Option (List CompiledRule)) : List CompiledRule :=
  match loaded with
  | some newRules => newRules
  | none => rules

/-! Specification-side definitions: these are written from the spec's
wording (not from the source) and are compared with the embedded code in
the refinement theorems below. -/

/-- Alignment of one axis of a named anchor: flush with the low edge,
centered, or flush with the high edge. -/
inductive AxisAlign where
  | low | mid | high
  deriving DecidableEq, Repr

/-- Specification formula for one axis of a named anchor: monitor origin,
plus extent minus window extent on the flush (high) axis, with the
difference halved on a centered axis. -/
def axisAnchor (origin extent winExtent : ℤ) : AxisAlign → ℤ
  | .low => origin
  | .mid => origin + Int.tdiv (extent - winExtent) 2
  | .high => origin + extent - winExtent

/-- The horizontal/vertical alignment of each of the nine named anchors. -/
def anchorAlign : NamedPosition → AxisAlign × AxisAlign
  | .center => (.mid, .mid)
  | .topLeft => (.low, .low)
  | .topRight => (.high, .low)
  | .bottomLeft => (.low, .high)
  | .bottomRight => (.high, .high)
  | .left => (.low, .mid)
  | .right => (.high, .mid)
  | .top => (.mid, .low)
  | .bottom => (.mid, .high)

/-- Specification-side named-position resolution: both axes computed by
`axisAnchor` from the monitor rectangle and the window size. -/
def anchorSpec (anchor : NamedPosition) (m : MonitorGeometry) (w h : ℕ) :
    ℤ × ℤ :=
  let al := anchorAlign anchor
  (axisAnchor m.x (m.width : ℤ) (w : ℤ) al.1,
   axisAnchor m.y (m.height : ℤ) (h : ℤ) al.2)

/-- Specification-side per-axis size resolution: pixel values and
percentages (floor of the product) clamped to a minimum of 1 pixel. -/
def dimSpecMin1 (v : DimensionVal) (total : ℕ) : ℕ :=
  match v with
  | .pixels px => (max px 1).toNat
  | .percent pct => (max ⌊(total : ℚ) * pct⌋ 1).toNat

/-- Specification-side size resolution: absolute sizes verbatim, flexible
sizes resolved per axis against the monitor's width/height. -/
def sizeSpec (sz : SizeTarget) (m : MonitorGeometry) : ℕ × ℕ :=
  match sz with
  | .absolute w h => (w, h)
  | .flexible wv hv => (dimSpecMin1 wv m.width, dimSpecMin1 hv m.height)

/-- Specification-side opacity conversion as the claim states it: clamp
into [0,1], scale by 0xFFFFFFFF, and round to the nearest integer (ties
away from zero, as Rust's `f64::round` would). -/
def opacityRoundSpec (v : ℚ) : ℕ :=
  (⌊min (max v 0) 1 * 4294967295 + 1/2⌋).toNat

/-- Specification-side truncating opacity conversion (the amended claim):
clamp into [0,1], scale by 0xFFFFFFFF, truncate toward zero (floor, since
the clamped product is nonnegative). -/
def opacityFloorSpec (v : ℚ) : ℕ :=
  (⌊min (max v 0) 1 * 4294967295⌋).toNat

/-- Specification-side apply step for the size action. -/
def sizeStep (rule : CompiledRule) (m : MonitorGeometry) : List Request :=
  match rule.size with
  | some sz => [Request.configureSize (resolveSize sz m).1 (resolveSize sz m).2]
  | none => []

/-- Specification-side apply step for the position action: uses the
just-resolved size when the rule set one, else the window's live size. -/
def positionStep (rule : CompiledRule) (m : MonitorGeometry)
    (geo : Option Geo) : List Request :=
  match rule.position with
  | some pos =>
      let winSize := match rule.size with
        | some sz => some (resolveSize sz m)
        | none => geo.map fun g => (g.2.2.1, g.2.2.2)
      let p := resolvePosition pos m winSize
      [Request.configurePos p.1 p.2]
  | none => []

/-- Specification-side apply step for the workspace assignment. -/
def workspaceStep (rule : CompiledRule) : List Request :=
  match rule.workspace with
  | some ws => [Request.netWmDesktop ws]
  | none => []

/-- Specification-side apply step for maximize. -/
def maximizeStep (rule : CompiledRule) : List Request :=
  if rule.maximize = some true then
    [Request.wmState 1 .maximizedVert (some .maximizedHorz)] else []

/-- Specification-side apply step for fullscreen. -/
def fullscreenStep (rule : CompiledRule) : List Request :=
  if rule.fullscreen = some true then [Request.wmState 1 .fullscreen none]
  else []

/-- Specification-side apply step for pin: a workspace assignment to the
all-desktops sentinel 0xFFFFFFFF followed by the sticky state request. -/
def pinStep (rule : CompiledRule) : List Request :=
  if rule.pin = some true then
    [Request.netWmDesktop 4294967295, Request.wmState 1 .sticky none] else []

/-- Specification-side apply step for minimize. -/
def minimizeStep (rule : CompiledRule) : List Request :=
  if rule.minimize = some true then [Request.wmChangeState 3] else []

/-- Specification-side apply step for shade. -/
def shadeStep (rule : CompiledRule) : List Request :=
  if rule.shade = some true then [Request.wmState 1 .shaded none] else []

/-- Specification-side apply step for above. -/
def aboveStep (rule : CompiledRule) : List Request :=
  if rule.above = some true then [Request.wmState 1 .above none] else []

/-- Specification-side apply step for below. -/
def belowStep (rule : CompiledRule) : List Request :=
  if rule.below = some true then [Request.wmState 1 .below none] else []

/-- Specification-side apply step for decorate on/off. -/
def decorateStep (rule : CompiledRule) : List Request :=
  (if rule.decorate = some false then [Request.motifHints 0] else []) ++
  (if rule.decorate = some true then [Request.motifHints 1] else [])

/-- Specification-side apply step for focus. -/
def focusStep (rule : CompiledRule) : List Request :=
  if rule.focus = some true then [Request.activeWindow] else []

/-- Specification-side apply step for opacity. -/
def opacityStep (rule : CompiledRule) : List Request :=
  match rule.opacity with
  | some v => [Request.opacityProp (opacityStored v)]
  | none => []

/-- Invariant carried across event-processing passes: the windows
dispatched so far are pairwise distinct and all recorded in `handled`, and
the startup backlog is duplicate-free and disjoint from `handled`. -/
def SessionInv (s : SessionState) (d : List ℕ) : Prop :=
  d.Nodup ∧ (∀ x ∈ d, x ∈ s.handled) ∧ s.pendingStartup.Nodup ∧
    (∀ x ∈ s.pendingStartup, x ∉ s.handled)

/-- A compiled rule with every field absent, for building concrete
examples. (The configuration validator rejects matcher-less rules, so this
exact rule never reaches the matcher; example rules below add matchers.) -/
def emptyCompiledRule : CompiledRule :=
  { cls := none, title := none, role := none, process := none,
    windowType := none, workspace := none, monitor := none,
    position := none, size := none, maximize := none, fullscreen := none,
    pin := none, minimize := none, shade := none, above := none,
    below := none, decorate := none, focus := none, opacity := none }

/-- Example rule that matches normal windows and pins them. -/
def pinOnlyRule : CompiledRule :=
  { emptyCompiledRule with windowType := some "normal", pin := some true }

/-- Example rule that matches normal windows and centers them. -/
def centerRule : CompiledRule :=
  { emptyCompiledRule with
    windowType := some "normal"
    position := some (.named .center) }

/-- All per-rule checks of the `load` validation loop pass for rule `r` at
index `i`: it has a matcher and its position/size values validate. -/
def ruleChecksOk (P : Parsers) (i : ℕ) (r : Rule) : Prop :=
  r.noMatcher = false ∧
  (match r.position with
   | some pos => validatePosition P pos i = .ok ()
   | none => True) ∧
  (match r.size with
   | some sz => validateSize P sz i = .ok ()
   | none => True)

/-- A configuration rule with every field absent — in particular with no
matcher, so `load` must reject it. -/
def emptyRule : Rule :=
  { cls := none, title := none, role := none, process := none,
    windowType := none, workspace := none, monitor := none,
    position := none, size := none, maximize := none, fullscreen := none,
    pin := none, minimize := none, shade := none, above := none,
    below := none, decorate := none, focus := none, opacity := none }

/-- A configuration rule with a class matcher and no actions. -/
def kittyRule : Rule :=
  { emptyRule with cls := some "kitty" }

/-- The compiled form of `kittyRule` under a regex compiler that accepts
every pattern with an always-true matcher. -/
def kittyCompiled : CompiledRule :=
  { emptyCompiledRule with cls := some ⟨fun _ => true⟩ }

/-- Parsers that reject every numeric string. -/
def noParsers : Parsers :=
  ⟨fun _ => none, fun _ => none, fun _ => none⟩

/-- A regex compiler that accepts every pattern (always-true matcher). -/
def acceptAllRegex : String → Option Regex :=
  fun _ => some ⟨fun _ => true⟩

/-- A regex compiler that rejects every pattern. -/
def rejectAllRegex : String → Option Regex :=
  fun _ => none

/-! Helper lemmas shared by the claim theorems. -/

theorem option_all_iff {α : Type} (o : Option α) (p : α → Bool) :
    o.all p = true ↔ ∀ a ∈ o, p a = true := by
  cases o <;> simp [Option.all]

theorem truncQ_of_nonneg {q : ℚ} (h : 0 ≤ q) : truncQ q = ⌊q⌋ := by
  unfold truncQ
  rw [Int.tdiv_eq_ediv (Rat.num_nonneg.mpr h) (by positivity), Rat.floor_def]

theorem truncQ_nonpos {q : ℚ} (h : q < 0) : truncQ q ≤ 0 := by
  unfold truncQ
  have hn : q.num ≤ 0 := le_of_lt (Rat.num_neg.mpr h)
  have hd : (0 : ℤ) ≤ (q.den : ℤ) := by positivity
  have h2 := Int.tdiv_nonneg (a := -q.num) (b := (q.den : ℤ)) (by omega) hd
  rw [Int.neg_tdiv] at h2
  omega

theorem resolveDim_min1_eq_dimSpec (v : DimensionVal) (t : ℕ) :
    (max (resolveDim v (t : ℤ)) 1).toNat = dimSpecMin1 v t := by
  cases v with
  | pixels px => rfl
  | percent pct =>
      simp only [resolveDim, dimSpecMin1]
      rw [show (((t : ℤ) : ℚ)) = (t : ℚ) by push_cast; ring]
      rcases le_or_lt 0 ((t : ℚ) * pct) with h | h
      · rw [truncQ_of_nonneg h]
      · have h1 : truncQ ((t : ℚ) * pct) ≤ 0 := truncQ_nonpos h
        have h2 : ⌊(t : ℚ) * pct⌋ ≤ 0 := Int.floor_nonpos h.le
        rw [max_eq_right (by omega), max_eq_right (by omega)]

/-! Claim theorems. -/

/-- C1: `CompiledRule.matches` returns true iff every present matcher
field matches its input (regex search for class/title/role/process,
ASCII-case-insensitive equality for the window type) while every absent
matcher is vacuously satisfied; the result is the conjunction over all
five attributes. -/
theorem matches_iff_present_matchers_match (r : CompiledRule)
    (cls title role process windowType : String) :
    r.matches cls title role process windowType = true ↔
      (∀ re ∈ r.cls, re.isMatch cls = true) ∧
      (∀ re ∈ r.title, re.isMatch title = true) ∧
      (∀ re ∈ r.role, re.isMatch role = true) ∧
      (∀ re ∈ r.process, re.isMatch process = true) ∧
      (∀ t ∈ r.windowType, eqIgnoreAsciiCase t windowType = true) := by
  simp only [CompiledRule.matches, Bool.and_eq_true, option_all_iff]
  tauto

/-- C6: named-position resolution computes each of the nine anchors as
monitor origin, plus extent minus window extent on flush axes, with the
difference halved on centered axes; in particular, on a 1920×1080 monitor
at the origin with an 800×600 window, center resolves to (560, 240),
top-left to (0, 0), and bottom-right to (1120, 480). -/
theorem named_position_resolution :
    (∀ (anchor : NamedPosition) (m : MonitorGeometry) (w h : ℕ),
        resolvePosition (.named anchor) m (some (w, h)) =
          anchorSpec anchor m w h) ∧
    resolvePosition (.named .center) ⟨"", 0, 0, 1920, 1080⟩
        (some (800, 600)) = (560, 240) ∧
    resolvePosition (.named .topLeft) ⟨"", 0, 0, 1920, 1080⟩
        (some (800, 600)) = (0, 0) ∧
    resolvePosition (.named .bottomRight) ⟨"", 0, 0, 1920, 1080⟩
        (some (800, 600)) = (1120, 480) := by
  refine ⟨fun anchor m w h => ?_, by decide, by decide, by decide⟩
  cases anchor <;>
    simp [resolvePosition, anchorSpec, anchorAlign, axisAnchor, add_sub_assoc]

/-- C7: size resolution returns absolute sizes verbatim and resolves
flexible dimensions per axis against the target monitor's width/height,
truncating the percentage product toward zero (floor of a nonnegative
product) and clamping to a minimum of 1 pixel; in particular
("50%", "100%") against a 1920×1080 monitor resolves to (960, 1080). -/
theorem size_resolution_spec :
    (∀ (sz : SizeTarget) (m : MonitorGeometry),
        resolveSize sz m = sizeSpec sz m) ∧
    resolveSize (.flexible (.percent (1/2)) (.percent 1))
        ⟨"", 0, 0, 1920, 1080⟩ = (960, 1080) := by
  constructor
  · intro sz m
    cases sz with
    | absolute w h => rfl
    | flexible wv hv =>
        simp only [resolveSize, sizeSpec,
          resolveDim_min1_eq_dimSpec wv m.width,
          resolveDim_min1_eq_dimSpec hv m.height]
  · show ((max (truncQ ((1920 : ℚ) * (1/2))) 1).toNat,
        (max (truncQ ((1080 : ℚ) * 1)) 1).toNat) = (960, 1080)
    have h1 : truncQ ((1920 : ℚ) * (1/2)) = 960 := by
      rw [truncQ_of_nonneg (by norm_num)]
      rw [show ((1920 : ℚ) * (1/2)) = ((960 : ℤ) : ℚ) by norm_num]
      exact Int.floor_intCast 960
    have h2 : truncQ ((1080 : ℚ) * 1) = 1080 := by
      rw [truncQ_of_nonneg (by norm_num)]
      rw [show ((1080 : ℚ) * 1) = ((1080 : ℤ) : ℚ) by norm_num]
      exact Int.floor_intCast 1080
    rw [h1, h2]
    rfl

/-- C8 counterexample: the claim says the stored opacity is the clamped
value scaled by 0xFFFFFFFF and rounded to the nearest integer, but the
code truncates the product toward zero: at input 1/4 the product is
1073741823.75 (exactly representable in the code's `f64` arithmetic), the
code stores 1073741823 while rounding to the nearest integer would store
1073741824. -/
theorem opacity_rounding_counterexample :
    opacityStored (1/4) = 1073741823 ∧ opacityRoundSpec (1/4) = 1073741824 := by
  have hclamp : min (max ((1/4 : ℚ)) 0) 1 = 1/4 := by
    rw [max_eq_left (by norm_num), min_eq_left (by norm_num)]
  constructor
  · unfold opacityStored
    rw [hclamp, truncQ_of_nonneg (by norm_num)]
    rw [show ⌊(1/4 : ℚ) * 4294967295⌋ = 1073741823 by
      rw [Int.floor_eq_iff]; norm_num]
    rfl
  · unfold opacityRoundSpec
    rw [hclamp]
    rw [show ⌊(1/4 : ℚ) * 4294967295 + 1/2⌋ = 1073741824 by
      rw [Int.floor_eq_iff]; norm_num]
    rfl

/-- C8 amended: the 32-bit value stored for an opacity v equals
floor(clamp(v, 0, 1) × 0xFFFFFFFF) — the input is clamped into [0,1]
(inputs below 0 store 0, inputs above 1 store 0xFFFFFFFF, never an error)
and the product is truncated toward zero; input 0.95 (= 19/20) stores
4080218930, which also equals round(0.95 × 0xFFFFFFFF). -/
theorem opacity_clamped_floor :
    (∀ v : ℚ, opacityStored v = opacityFloorSpec v) ∧
    (∀ v : ℚ, v ≤ 0 → opacityStored v = 0) ∧
    (∀ v : ℚ, 1 ≤ v → opacityStored v = 4294967295) ∧
    opacityStored (19/20) = 4080218930 ∧
    opacityRoundSpec (19/20) = 4080218930 := by
  have key : ∀ v : ℚ, opacityStored v = opacityFloorSpec v := by
    intro v
    unfold opacityStored opacityFloorSpec
    rw [truncQ_of_nonneg
      (mul_nonneg (le_min (le_max_right v 0) zero_le_one) (by norm_num))]
  refine ⟨key, ?_, ?_, ?_, ?_⟩
  · intro v hv
    unfold opacityStored
    rw [max_eq_right hv, min_eq_left zero_le_one, zero_mul]
    rfl
  · intro v hv
    unfold opacityStored
    rw [max_eq_left (le_trans zero_le_one hv), min_eq_right hv, one_mul]
    rw [truncQ_of_nonneg (by norm_num)]
    rw [show ((4294967295 : ℚ)) = ((4294967295 : ℤ) : ℚ) by norm_num,
      Int.floor_intCast]
    rfl
  · unfold opacityStored
    rw [max_eq_left (by norm_num), min_eq_left (by norm_num)]
    rw [truncQ_of_nonneg (by norm_num)]
    rw [show ⌊(19/20 : ℚ) * 4294967295⌋ = 4080218930 by
      rw [Int.floor_eq_iff]; norm_num]
    rfl
  · unfold opacityRoundSpec
    rw [max_eq_left (by norm_num), min_eq_left (by norm_num)]
    rw [show ⌊(19/20 : ℚ) * 4294967295 + 1/2⌋ = 4080218930 by
      rw [Int.floor_eq_iff]; norm_num]
    rfl

/-- Witness for the amended C8 theorem: the clamping conjuncts applied at
the concrete inputs -1 and 2. -/
theorem opacity_clamped_floor_witness :
    opacityStored (-1) = 0 ∧ opacityStored 2 = 4294967295 :=
  ⟨opacity_clamped_floor.2.1 (-1) (by norm_num),
   opacity_clamped_floor.2.2.1 2 (by norm_num)⟩

/-- C3: monitor resolution uses exactly one method per rule application,
the first that yields a concrete monitor: a valid explicit index always
wins (regardless of geometry); an out-of-range index or an unmatched name
falls through (never an error) to the fallback chain, which returns the
first monitor containing the window's center, else the first discovered
monitor, else the synthetic 1920×1080 monitor at the origin. -/
theorem monitor_resolution_precedence :
    (∀ (monitors : List MonitorGeometry) (geo : Option Geo) (i : ℕ)
        (m : MonitorGeometry), monitors[i]? = some m →
        resolveMonitor monitors (some (.index i)) geo = m) ∧
    (∀ (monitors : List MonitorGeometry) (geo : Option Geo) (i : ℕ),
        monitors.length ≤ i →
        resolveMonitor monitors (some (.index i)) geo =
          resolveMonitorFallback monitors geo) ∧
    (∀ (monitors : List MonitorGeometry) (geo : Option Geo) (n : String),
        (∀ m ∈ monitors, m.name ≠ n) →
        resolveMonitor monitors (some (.name n)) geo =
          resolveMonitorFallback monitors geo) ∧
    (∀ (monitors : List MonitorGeometry) (gx gy : ℤ) (gw gh : ℕ)
        (m : MonitorGeometry),
        (monitors.find? fun mm => monitorContains mm
            (gx + Int.tdiv (gw : ℤ) 2) (gy + Int.tdiv (gh : ℤ) 2)) = some m →
        resolveMonitorFallback monitors (some (gx, gy, gw, gh)) = m) ∧
    (∀ (monitors : List MonitorGeometry) (gx gy : ℤ) (gw gh : ℕ),
        (∀ mm ∈ monitors, monitorContains mm
            (gx + Int.tdiv (gw : ℤ) 2) (gy + Int.tdiv (gh : ℤ) 2) = false) →
        resolveMonitorFallback monitors (some (gx, gy, gw, gh)) =
          monitors.head?.getD defaultMonitor) ∧
    (∀ (monitors : List MonitorGeometry),
        resolveMonitorFallback monitors none =
          monitors.head?.getD defaultMonitor) ∧
    (∀ (target : Option MonitorTarget) (geo : Option Geo),
        resolveMonitor [] target geo = defaultMonitor) ∧
    defaultMonitor =
      { name := "", x := 0, y := 0, width := 1920, height := 1080 } := by
  refine ⟨?_, ?_, ?_, ?_, ?_, ?_, ?_, rfl⟩
  · intro monitors geo i m h
    simp [resolveMonitor, h]
  · intro monitors geo i h
    simp [resolveMonitor, List.getElem?_eq_none h]
  · intro monitors geo n h
    have hf : (monitors.find? fun m => m.name == n) = none := by
      rw [List.find?_eq_none]
      intro m hm
      simpa using h m hm
    simp [resolveMonitor, hf]
  · intro monitors gx gy gw gh m h
    simp [resolveMonitorFallback, h]
  · intro monitors gx gy gw gh h
    have hf : (monitors.find? fun mm => monitorContains mm
        (gx + Int.tdiv (gw : ℤ) 2) (gy + Int.tdiv (gh : ℤ) 2)) = none := by
      rw [List.find?_eq_none]
      intro mm hm
      simp [h mm hm]
    simp [resolveMonitorFallback, hf]
  · intro monitors
    simp [resolveMonitorFallback]
  · intro target geo
    rcases target with _ | t
    · cases geo <;> simp [resolveMonitor, resolveMonitorFallback]
    · cases t <;> cases geo <;>
        simp [resolveMonitor, resolveMonitorFallback]

/-- Witness for C3: each hypothesis-bearing conjunct applied at concrete
monitors, indices, names, and geometries. -/
theorem monitor_resolution_precedence_witness :
    resolveMonitor [⟨"A", 0, 0, 100, 100⟩, ⟨"B", 100, 0, 100, 100⟩]
        (some (.index 1)) (some (0, 0, 10, 10)) = ⟨"B", 100, 0, 100, 100⟩ ∧
    resolveMonitor [⟨"A", 0, 0, 100, 100⟩] (some (.index 5)) none =
      resolveMonitorFallback [⟨"A", 0, 0, 100, 100⟩] none ∧
    resolveMonitor [⟨"A", 0, 0, 100, 100⟩] (some (.name "C")) none =
      resolveMonitorFallback [⟨"A", 0, 0, 100, 100⟩] none ∧
    resolveMonitorFallback [⟨"A", 0, 0, 100, 100⟩] (some (0, 0, 10, 10)) =
      ⟨"A", 0, 0, 100, 100⟩ ∧
    resolveMonitorFallback [⟨"A", 0, 0, 100, 100⟩] (some (500, 500, 10, 10)) =
      ([⟨"A", 0, 0, 100, 100⟩] : List MonitorGeometry).head?.getD
        defaultMonitor :=
  ⟨monitor_resolution_precedence.1 _ _ 1 _ rfl,
   monitor_resolution_precedence.2.1 _ _ 5 (by norm_num),
   monitor_resolution_precedence.2.2.1 _ _ "C" (by decide),
   monitor_resolution_precedence.2.2.2.1 _ 0 0 10 10 _ (by decide),
   monitor_resolution_precedence.2.2.2.2.1 _ 500 500 10 10 (by decide)⟩

/-- C4: within the application of one matched rule in live mode the
actions are issued in the fixed order size, position, workspace, maximize,
fullscreen, pin (which additionally sends a workspace assignment to the
all-desktops sentinel 0xFFFFFFFF), minimize, shade, above, below,
decorate, focus, opacity — each step contributing requests only when its
action field is present in the rule. -/
theorem apply_rule_order (rule : CompiledRule)
    (monitors : List MonitorGeometry) (geo : Option Geo) :
    applyRule rule monitors geo =
      sizeStep rule (resolveMonitor monitors rule.monitor geo) ++
      positionStep rule (resolveMonitor monitors rule.monitor geo) geo ++
      workspaceStep rule ++ maximizeStep rule ++ fullscreenStep rule ++
      pinStep rule ++ minimizeStep rule ++ shadeStep rule ++
      aboveStep rule ++ belowStep rule ++ decorateStep rule ++
      focusStep rule ++ opacityStep rule ∧
    (rule.pin = some true → pinStep rule =
      [Request.netWmDesktop 4294967295, Request.wmState 1 .sticky none]) ∧
    (rule.size = none →
      sizeStep rule (resolveMonitor monitors rule.monitor geo) = []) ∧
    (rule.position = none →
      positionStep rule (resolveMonitor monitors rule.monitor geo) geo = []) ∧
    (rule.workspace = none → workspaceStep rule = []) ∧
    (rule.maximize = none → maximizeStep rule = []) ∧
    (rule.fullscreen = none → fullscreenStep rule = []) ∧
    (rule.pin = none → pinStep rule = []) ∧
    (rule.minimize = none → minimizeStep rule = []) ∧
    (rule.shade = none → shadeStep rule = []) ∧
    (rule.above = none → aboveStep rule = []) ∧
    (rule.below = none → belowStep rule = []) ∧
    (rule.decorate = none → decorateStep rule = []) ∧
    (rule.focus = none → focusStep rule = []) ∧
    (rule.opacity = none → opacityStep rule = []) := by
  refine ⟨?_, fun h => by simp [pinStep, h], fun h => by simp [sizeStep, h],
    fun h => by simp [positionStep, h], fun h => by simp [workspaceStep, h],
    fun h => by simp [maximizeStep, h], fun h => by simp [fullscreenStep, h],
    fun h => by simp [pinStep, h], fun h => by simp [minimizeStep, h],
    fun h => by simp [shadeStep, h], fun h => by simp [aboveStep, h],
    fun h => by simp [belowStep, h], fun h => by simp [decorateStep, h],
    fun h => by simp [focusStep, h], fun h => by simp [opacityStep, h]⟩
  cases hs : rule.size with
  | none =>
      simp [applyRule, sizeStep, positionStep, workspaceStep, maximizeStep,
        fullscreenStep, pinStep, minimizeStep, shadeStep, aboveStep,
        belowStep, decorateStep, focusStep, opacityStep, hs]
  | some sz =>
      rcases hr : resolveSize sz (resolveMonitor monitors rule.monitor geo)
        with ⟨w, h⟩
      simp [applyRule, sizeStep, positionStep, workspaceStep, maximizeStep,
        fullscreenStep, pinStep, minimizeStep, shadeStep, aboveStep,
        belowStep, decorateStep, focusStep, opacityStep, hs, hr]

/-- Witness for C4: the step equalities applied at a rule that only pins
and at a rule with no actions at all. -/
theorem apply_rule_order_witness :
    pinStep pinOnlyRule =
      [Request.netWmDesktop 4294967295, Request.wmState 1 .sticky none] ∧
    sizeStep emptyCompiledRule (resolveMonitor [] emptyCompiledRule.monitor
      none) = [] ∧
    pinStep emptyCompiledRule = [] ∧
    opacityStep emptyCompiledRule = [] :=
  ⟨(apply_rule_order pinOnlyRule [] none).2.1 rfl,
   (apply_rule_order emptyCompiledRule [] none).2.2.1 rfl,
   (apply_rule_order emptyCompiledRule [] none).2.2.2.2.2.2.2.1 rfl,
   (apply_rule_order emptyCompiledRule [] none).2.2.2.2.2.2.2.2.2.2.2.2.2.2
     rfl⟩

/-- C9 counterexample: the claim says the dry-run log records the resolved
position, but for a matched centering rule on a 1920×1080 monitor with an
800×600 window the dry-run log records only the unresolved position target
`Named(Center)` — not the resolved coordinates (560, 240) that live mode
issues for the same window — so the resolution logic's output does not
appear in the log. -/
theorem dry_run_unresolved_counterexample :
    (handleWindowRule centerRule "c" "t" "r" "p" "normal" [defaultMonitor]
        (some (0, 0, 800, 600)) true).2 =
      [LogEntry.position (PositionTarget.named NamedPosition.center)] ∧
    (handleWindowRule centerRule "c" "t" "r" "p" "normal" [defaultMonitor]
        (some (0, 0, 800, 600)) false).1 =
      [Request.configurePos 560 240] ∧
    LogEntry.position (PositionTarget.named NamedPosition.center) ≠
      LogEntry.position (PositionTarget.absolute 560 240) := by
  refine ⟨by decide, by decide, by decide⟩

/-- C9 amended: in dry-run mode the identical matching logic executes, no
protocol write is issued, and the apply step is replaced by a structured
log of the rule's action fields (monitor target, position target, size
target, workspace, and each present toggle), without running the
resolution logic. -/
theorem dry_run_no_writes (rule : CompiledRule)
    (cls title role process windowType : String)
    (monitors : List MonitorGeometry) (geo : Option Geo) :
    (handleWindowRule rule cls title role process windowType monitors geo
      true).1 = [] ∧
    (rule.matches cls title role process windowType = false →
      handleWindowRule rule cls title role process windowType monitors geo
          true = ([], []) ∧
      handleWindowRule rule cls title role process windowType monitors geo
          false = ([], [])) ∧
    (rule.matches cls title role process windowType = true →
      (handleWindowRule rule cls title role process windowType monitors geo
          true).2 = logActions rule ∧
      handleWindowRule rule cls title role process windowType monitors geo
          false = (applyRule rule monitors geo, [])) := by
  by_cases h : rule.matches cls title role process windowType = true
  · refine ⟨by simp [handleWindowRule, h], fun hf => ?_,
      fun _ => ⟨by simp [handleWindowRule, h], by simp [handleWindowRule, h]⟩⟩
    rw [h] at hf
    cases hf
  · have hf : rule.matches cls title role process windowType = false := by
      revert h; cases rule.matches cls title role process windowType <;> simp
    refine ⟨by simp [handleWindowRule, hf],
      fun _ => ⟨by simp [handleWindowRule, hf], by simp [handleWindowRule, hf]⟩,
      fun ht => ?_⟩
    rw [ht] at hf
    cases hf

/-- Witness for the amended C9 theorem: a matching dry-run logs and a
non-matching window produces nothing in live mode. -/
theorem dry_run_no_writes_witness :
    (handleWindowRule centerRule "c" "t" "r" "p" "normal" [] none true).2 =
      logActions centerRule ∧
    handleWindowRule centerRule "c" "t" "r" "p" "dock" [] none false =
      ([], []) :=
  ⟨((dry_run_no_writes centerRule "c" "t" "r" "p" "normal" [] none).2.2
      (by decide)).1,
   ((dry_run_no_writes centerRule "c" "t" "r" "p" "dock" [] none).2.1
      (by decide)).2⟩

theorem liveStep_eq (known : List ℕ) (acc : List ℕ × List ℕ) (w : ℕ) :
    liveStep known acc w =
      if w ∉ known ∧ w ∉ acc.1 then (acc.1 ++ [w], acc.2 ++ [w]) else acc := by
  unfold liveStep
  by_cases h1 : w ∈ known <;> by_cases h2 : w ∈ acc.1 <;> simp [h1, h2]

theorem processEvents_true (s : SessionState) (cur : List ℕ) :
    processEvents s true cur =
      ({ knownClients := cur,
         handled := (cur.foldl (liveStep s.knownClients)
           (s.handled ++ s.pendingStartup, [])).1,
         pendingStartup := [] },
       s.pendingStartup ++ (cur.foldl (liveStep s.knownClients)
         (s.handled ++ s.pendingStartup, [])).2) := by
  simp [processEvents]

theorem processEvents_false (s : SessionState) (cur : List ℕ) :
    processEvents s false cur =
      ({ knownClients := s.knownClients,
         handled := s.handled ++ s.pendingStartup,
         pendingStartup := [] }, s.pendingStartup) := by
  simp [processEvents]

theorem foldl_liveStep_delta (known : List ℕ) :
    ∀ (cur h0 d0 : List ℕ),
      ∃ t, cur.foldl (liveStep known) (h0, d0) = (h0 ++ t, d0 ++ t) := by
  intro cur
  induction cur with
  | nil => exact fun h0 d0 => ⟨[], by simp⟩
  | cons c rest ih =>
      intro h0 d0
      rw [List.foldl_cons, liveStep_eq]
      by_cases hc : c ∉ known ∧ c ∉ h0
      · rw [if_pos hc]
        obtain ⟨t, ht⟩ := ih (h0 ++ [c]) (d0 ++ [c])
        exact ⟨[c] ++ t, by rw [ht]; simp⟩
      · rw [if_neg hc]
        exact ih h0 d0

theorem foldl_liveStep_mem (known : List ℕ) (x : ℕ) :
    ∀ (cur h0 d0 : List ℕ),
      x ∈ (cur.foldl (liveStep known) (h0, d0)).2 ↔
        x ∈ d0 ∨ (x ∈ cur ∧ x ∉ known ∧ x ∉ h0) := by
  intro cur
  induction cur with
  | nil => simp
  | cons c rest ih =>
      intro h0 d0
      rw [List.foldl_cons, liveStep_eq]
      by_cases hc : c ∉ known ∧ c ∉ h0
      · rw [if_pos hc]
        rw [ih (h0 ++ [c]) (d0 ++ [c])]
        by_cases hx : x = c
        · subst hx
          simp [hc.1, hc.2]
        · simp only [List.mem_append, List.mem_singleton, List.mem_cons, hx,
            or_false, false_or]
          tauto
      · rw [if_neg hc]
        rw [ih h0 d0]
        push_neg at hc
        by_cases hx : x = c
        · subst hx
          constructor
          · intro h
            rcases h with h | ⟨h1, h2, h3⟩
            · exact Or.inl h
            · exact Or.inr ⟨List.mem_cons_self x rest, h2, h3⟩
          · intro h
            rcases h with h | ⟨_, h2, h3⟩
            · exact Or.inl h
            · exact absurd (hc h2) h3
        · simp only [List.mem_cons, hx, false_or]

theorem foldl_liveStep_nodup (known : List ℕ) :
    ∀ (cur h0 d0 : List ℕ), d0.Nodup → (∀ x ∈ d0, x ∈ h0) →
      (cur.foldl (liveStep known) (h0, d0)).2.Nodup := by
  intro cur
  induction cur with
  | nil => exact fun h0 d0 hnd _ => hnd
  | cons c rest ih =>
      intro h0 d0 hnd hsub
      rw [List.foldl_cons, liveStep_eq]
      by_cases hc : c ∉ known ∧ c ∉ h0
      · rw [if_pos hc]
        refine ih (h0 ++ [c]) (d0 ++ [c]) ?_ ?_
        · rw [List.nodup_append]
          refine ⟨hnd, List.nodup_singleton c, ?_⟩
          intro x hx hxc
          rw [List.mem_singleton] at hxc
          exact hc.2 (hxc ▸ hsub x hx)
        · intro x hx
          rcases List.mem_append.mp hx with h | h
          · exact List.mem_append.mpr (Or.inl (hsub x h))
          · exact List.mem_append.mpr (Or.inr h)
      · rw [if_neg hc]
        exact ih h0 d0 hnd hsub

theorem processEvents_handled_eq (s : SessionState) (b : Bool)
    (cur : List ℕ) :
    (processEvents s b cur).1.handled =
      s.handled ++ (processEvents s b cur).2 ∧
    (processEvents s b cur).1.pendingStartup = [] := by
  cases b with
  | false =>
      rw [processEvents_false]
      exact ⟨rfl, rfl⟩
  | true =>
      obtain ⟨t, ht⟩ := foldl_liveStep_delta s.knownClients cur
        (s.handled ++ s.pendingStartup) []
      rw [processEvents_true, ht]
      simp

theorem processEvents_startup_mem (s : SessionState) (b : Bool)
    (cur : List ℕ) (w : ℕ) (hw : w ∈ s.pendingStartup) :
    w ∈ (processEvents s b cur).2 := by
  cases b with
  | false => rw [processEvents_false]; exact hw
  | true =>
      rw [processEvents_true]
      exact List.mem_append.mpr (Or.inl hw)

theorem processEvents_inv (s : SessionState) (d : List ℕ) (b : Bool)
    (cur : List ℕ) (h : SessionInv s d) :
    SessionInv (processEvents s b cur).1 (d ++ (processEvents s b cur).2) := by
  obtain ⟨hdn, hdh, hpn, hph⟩ := h
  cases b with
  | false =>
      rw [processEvents_false]
      refine ⟨?_, ?_, List.nodup_nil, by simp⟩
      · rw [List.nodup_append]
        exact ⟨hdn, hpn, fun x hx hxp => hph x hxp (hdh x hx)⟩
      · intro x hx
        rcases List.mem_append.mp hx with hxd | hxp
        · exact List.mem_append.mpr (Or.inl (hdh x hxd))
        · exact List.mem_append.mpr (Or.inr hxp)
  | true =>
      obtain ⟨t, ht⟩ := foldl_liveStep_delta s.knownClients cur
        (s.handled ++ s.pendingStartup) []
      have hmem : ∀ x ∈ t, x ∉ s.handled ++ s.pendingStartup := by
        intro x hx
        have hm := (foldl_liveStep_mem s.knownClients x cur
          (s.handled ++ s.pendingStartup) []).mp (by rw [ht]; simpa using hx)
        rcases hm with h0 | ⟨_, _, hnh⟩
        · cases h0
        · exact hnh
      have htn : t.Nodup := by
        have hn := foldl_liveStep_nodup s.knownClients cur
          (s.handled ++ s.pendingStartup) [] List.nodup_nil (by simp)
        rw [ht] at hn
        simpa using hn
      rw [processEvents_true, ht]
      refine ⟨?_, ?_, List.nodup_nil, by simp⟩
      · simp only [List.nil_append]
        rw [show d ++ (s.pendingStartup ++ t) =
          d ++ s.pendingStartup ++ t from by simp [List.append_assoc]]
        rw [List.nodup_append]
        refine ⟨?_, htn, ?_⟩
        · rw [List.nodup_append]
          exact ⟨hdn, hpn, fun x hx hxp => hph x hxp (hdh x hx)⟩
        · intro x hx hxt
          rcases List.mem_append.mp hx with hxd | hxp
          · exact hmem x hxt (List.mem_append.mpr (Or.inl (hdh x hxd)))
          · exact hmem x hxt (List.mem_append.mpr (Or.inr hxp))
      · intro x hx
        simp only [List.nil_append, List.mem_append] at hx ⊢
        rcases hx with hxd | hxp | hxt
        · exact Or.inl (Or.inl (hdh x hxd))
        · exact Or.inl (Or.inr hxp)
        · exact Or.inr hxt

theorem runEvents_inv (steps : List (Bool × List ℕ)) :
    ∀ (s : SessionState) (d : List ℕ), SessionInv s d →
      SessionInv (runEvents s steps).1 (d ++ (runEvents s steps).2) := by
  induction steps with
  | nil =>
      intro s d h
      simpa [runEvents] using h
  | cons step rest ih =>
      intro s d h
      have h1 := processEvents_inv s d step.1 step.2 h
      have h2 := ih (processEvents s step.1 step.2).1
        (d ++ (processEvents s step.1 step.2).2) h1
      simpa [runEvents, List.append_assoc] using h2

/-- C2: across one process lifetime every window handle is dispatched
through rule matching as a new window at most once; handles present at
startup are dispatched exactly once when the startup backlog is drained in
the first pass; `handled` grows by exactly the dispatched windows (it is
append-only); and a window first seen in a later client-list change is
dispatched precisely when it is in neither `known_clients` nor `handled`.
The startup client list is assumed duplicate-free (the X server reports
each managed window once in `_NET_CLIENT_LIST`). -/
theorem window_dispatched_at_most_once (init : List ℕ)
    (steps : List (Bool × List ℕ)) (hinit : init.Nodup) :
    (runEvents ⟨init, [], init⟩ steps).2.Nodup ∧
    (∀ (s : SessionState) (b : Bool) (cur : List ℕ),
        (processEvents s b cur).1.handled =
          s.handled ++ (processEvents s b cur).2) ∧
    (steps ≠ [] → ∀ w ∈ init,
        (runEvents ⟨init, [], init⟩ steps).2.count w = 1) ∧
    (∀ (s : SessionState) (cur : List ℕ) (w : ℕ), s.pendingStartup = [] →
        (w ∈ (processEvents s true cur).2 ↔
          w ∈ cur ∧ w ∉ s.knownClients ∧ w ∉ s.handled)) := by
  have hinv0 : SessionInv ⟨init, [], init⟩ [] :=
    ⟨List.nodup_nil, by simp, hinit, by simp⟩
  have hrun := runEvents_inv steps ⟨init, [], init⟩ [] hinv0
  have hnodup : (runEvents ⟨init, [], init⟩ steps).2.Nodup := by
    have hn := hrun.1
    simpa using hn
  refine ⟨hnodup, fun s b cur => (processEvents_handled_eq s b cur).1,
    ?_, ?_⟩
  · intro hne w hw
    apply List.count_eq_one_of_mem hnodup
    cases steps with
    | nil => exact absurd rfl hne
    | cons step rest =>
        have hw1 : w ∈ (processEvents ⟨init, [], init⟩ step.1 step.2).2 :=
          processEvents_startup_mem ⟨init, [], init⟩ step.1 step.2 w hw
        show w ∈ (runEvents ⟨init, [], init⟩ (step :: rest)).2
        simp only [runEvents, List.mem_append]
        exact Or.inl hw1
  · intro s cur w hp
    have hmem := foldl_liveStep_mem s.knownClients w cur
      (s.handled ++ s.pendingStartup) []
    rw [processEvents_true, hp]
    rw [hp] at hmem
    simp only [List.append_nil, List.nil_append] at hmem ⊢
    rw [hmem]
    simp

/-- Witness for C2: a concrete two-window startup backlog followed by one
client-list change dispatches window 1 exactly once. -/
theorem window_dispatched_at_most_once_witness :
    (runEvents ⟨[1, 2], [], [1, 2]⟩ [(true, [1, 2, 3])]).2.count 1 = 1 :=
  (window_dispatched_at_most_once [1, 2] [(true, [1, 2, 3])]
    (by decide)).2.2.1 (by simp) 1 (by decide)

theorem exists_enumFrom_of_mem {α : Type} {r : α} :
    ∀ (l : List α) (n : ℕ), r ∈ l → ∃ i, (i, r) ∈ List.enumFrom n l := by
  intro l
  induction l with
  | nil => intro n h; cases h
  | cons a t ih =>
      intro n h
      rcases List.mem_cons.mp h with h | h
      · exact ⟨n, by simp [List.enumFrom, h]⟩
      · obtain ⟨i, hi⟩ := ih (n + 1) h
        exact ⟨i, by simp only [List.enumFrom, List.mem_cons]; exact Or.inr hi⟩

theorem exists_enum_of_mem {α : Type} {r : α} (l : List α) (h : r ∈ l) :
    ∃ i, (i, r) ∈ l.enum :=
  exists_enumFrom_of_mem l 0 h

theorem validateRules_not_ok (P : Parsers) :
    ∀ (l : List (ℕ × Rule)) (i : ℕ) (r : Rule), (i, r) ∈ l →
      ¬ ruleChecksOk P i r → validateRules P l ≠ .ok () := by
  intro l
  induction l with
  | nil => intro i r h; cases h
  | cons p rest ih =>
      intro i r hmem hbad
      rcases p with ⟨j, s⟩
      by_cases hnm : s.noMatcher
      · simp [validateRules, hnm]
      · have hnm' : s.noMatcher = false := by
          revert hnm; cases s.noMatcher <;> simp
        cases hp : s.position with
        | some pos =>
            cases hvp : validatePosition P pos j with
            | error e => simp [validateRules, hnm', hp, hvp,
                Bind.bind, Except.bind]
            | ok u =>
                cases hs : s.size with
                | some sz =>
                    cases hvs : validateSize P sz j with
                    | error e => simp [validateRules, hnm', hp, hvp, hs, hvs,
                        Bind.bind, Except.bind]
                    | ok v =>
                        have hstep : validateRules P ((j, s) :: rest) =
                            validateRules P rest := by
                          simp [validateRules, hnm', hp, hvp, hs, hvs,
                            Bind.bind, Except.bind]
                        rw [hstep]
                        rcases List.mem_cons.mp hmem with heq | hmem'
                        · injection heq with h1 h2
                          subst h1; subst h2
                          exact absurd ⟨hnm', by rw [hp]; exact hvp,
                            by rw [hs]; exact hvs⟩ hbad
                        · exact ih i r hmem' hbad
                | none =>
                    have hstep : validateRules P ((j, s) :: rest) =
                        validateRules P rest := by
                      simp [validateRules, hnm', hp, hvp, hs,
                        Bind.bind, Except.bind]
                    rw [hstep]
                    rcases List.mem_cons.mp hmem with heq | hmem'
                    · injection heq with h1 h2
                      subst h1; subst h2
                      exact absurd ⟨hnm', by rw [hp]; exact hvp,
                        by rw [hs]; exact trivial⟩ hbad
                    · exact ih i r hmem' hbad
        | none =>
            cases hs : s.size with
            | some sz =>
                cases hvs : validateSize P sz j with
                | error e => simp [validateRules, hnm', hp, hs, hvs,
                    Bind.bind, Except.bind]
                | ok v =>
                    have hstep : validateRules P ((j, s) :: rest) =
                        validateRules P rest := by
                      simp [validateRules, hnm', hp, hs, hvs,
                        Bind.bind, Except.bind]
                    rw [hstep]
                    rcases List.mem_cons.mp hmem with heq | hmem'
                    · injection heq with h1 h2
                      subst h1; subst h2
                      exact absurd ⟨hnm', by rw [hp]; exact trivial,
                        by rw [hs]; exact hvs⟩ hbad
                    · exact ih i r hmem' hbad
            | none =>
                have hstep : validateRules P ((j, s) :: rest) =
                    validateRules P rest := by
                  simp [validateRules, hnm', hp, hs, Bind.bind, Except.bind]
                rw [hstep]
                rcases List.mem_cons.mp hmem with heq | hmem'
                · injection heq with h1 h2
                  subst h1; subst h2
                  exact absurd ⟨hnm', by rw [hp]; exact trivial,
                    by rw [hs]; exact trivial⟩ hbad
                · exact ih i r hmem' hbad

theorem validateRules_skip (P : Parsers) (j : ℕ) (s : Rule)
    (rest : List (ℕ × Rule)) (hok : ruleChecksOk P j s) :
    validateRules P ((j, s) :: rest) = validateRules P rest := by
  obtain ⟨h1, h2, h3⟩ := hok
  cases hp : s.position with
  | some pos =>
      rw [hp] at h2
      cases hs : s.size with
      | some sz =>
          rw [hs] at h3
          simp [validateRules, h1, hp, h2, hs, h3, Bind.bind, Except.bind]
      | none => simp [validateRules, h1, hp, h2, hs, Bind.bind, Except.bind]
  | none =>
      cases hs : s.size with
      | some sz =>
          rw [hs] at h3
          simp [validateRules, h1, hp, hs, h3, Bind.bind, Except.bind]
      | none => simp [validateRules, h1, hp, hs, Bind.bind, Except.bind]

theorem validateRules_first_noMatcher (P : Parsers) :
    ∀ (l : List (ℕ × Rule)) (k : ℕ) (hk : k < l.length),
      (l.get ⟨k, hk⟩).2.noMatcher = true →
      (∀ j (hj : j < l.length), j < k →
        ruleChecksOk P (l.get ⟨j, hj⟩).1 (l.get ⟨j, hj⟩).2) →
      validateRules P l = .error ("rule[" ++ toString (l.get ⟨k, hk⟩).1 ++
        "]: no matcher (need class, title, role, process, or type)") := by
  intro l
  induction l with
  | nil => intro k hk; exact absurd hk (Nat.not_lt_zero k)
  | cons p rest ih =>
      intro k hk hnm hprev
      rcases p with ⟨j, s⟩
      cases k with
      | zero =>
          have hnm0 : s.noMatcher = true := hnm
          show validateRules P ((j, s) :: rest) = _
          simp [validateRules, hnm0]
      | succ k' =>
          have hok : ruleChecksOk P j s :=
            hprev 0 (Nat.succ_pos _) (Nat.succ_pos k')
          rw [validateRules_skip P j s rest hok]
          have hk' : k' < rest.length := Nat.lt_of_succ_lt_succ hk
          exact ih k' hk' hnm (fun j' hj' hlt =>
            hprev (j' + 1) (Nat.succ_lt_succ hj') (Nat.succ_lt_succ hlt))

theorem load_ok_unfold (P : Parsers) (cfg : Config) :
    load P (Except.ok cfg) =
      (validateRules P cfg.rule.enum).map (fun _ => cfg) := by
  cases hv : validateRules P cfg.rule.enum <;>
    simp [load, hv, Bind.bind, Except.bind, Except.map, Pure.pure,
      Except.pure]

theorem load_error_eq (P : Parsers) (e : String) :
    load P (Except.error e) = Except.error e := by
  simp [load, Bind.bind, Except.bind]

theorem compileRule_error_of_bad_cls (rx : String → Option Regex)
    (P : Parsers) (r : Rule) (s : String) (h1 : r.cls = some s)
    (h2 : rx s = none) :
    compileRule rx P r = .error ("bad regex '" ++ s ++ "'") := by
  simp [compileRule, compilePat, h1, h2, Bind.bind, Except.bind]

theorem compileRules_not_ok (rx : String → Option Regex) (P : Parsers) :
    ∀ (l : List (ℕ × Rule)) (i : ℕ) (r : Rule) (e0 : String),
      (i, r) ∈ l → compileRule rx P r = .error e0 →
      ∀ out, compileRules rx P l ≠ .ok out := by
  intro l
  induction l with
  | nil => intro i r e0 h; cases h
  | cons p rest ih =>
      intro i r e0 hmem herr out
      rcases p with ⟨j, s⟩
      rcases List.mem_cons.mp hmem with heq | hmem'
      · injection heq with h1 h2
        subst h1; subst h2
        simp [compileRules, herr]
      · cases hcs : compileRule rx P s with
        | error e => simp [compileRules, hcs]
        | ok c =>
            cases hrest : compileRules rx P rest with
            | error e => simp [compileRules, hcs, hrest]
            | ok cs => exact absurd hrest (ih i r e0 hmem' herr cs)

/-- C5: a failed reload (file/parse error, a matcher-less rule, an invalid
percentage, a pattern that fails to compile) leaves the active rule set
completely unchanged, while a successful reload replaces it in one step. -/
theorem reload_keeps_last_good (rx : String → Option Regex) (P : Parsers)
    (readParse : Except String Config) (prev : List CompiledRule) :
    (loadRules rx P readParse = none →
      reloadRules prev (loadRules rx P readParse) = prev) ∧
    (∀ newRules, loadRules rx P readParse = some newRules →
      reloadRules prev (loadRules rx P readParse) = newRules) ∧
    (∀ e, readParse = .error e → loadRules rx P readParse = none) ∧
    (∀ cfg r, readParse = .ok cfg → r ∈ cfg.rule → r.noMatcher = true →
      loadRules rx P readParse = none) ∧
    (∀ cfg r pw ph pct, readParse = .ok cfg → r ∈ cfg.rule →
      r.size = some (.flexible pw ph) → stripPercent pw = some pct →
      P.parseF64 pct = none → loadRules rx P readParse = none) ∧
    (∀ cfg r s, readParse = .ok cfg → r ∈ cfg.rule → r.cls = some s →
      rx s = none → loadRules rx P readParse = none) := by
  have load_none_of_validate :
      ∀ (cfg : Config), validateRules P cfg.rule.enum ≠ .ok () →
        loadRules rx P (.ok cfg) = none := by
    intro cfg hval
    have hu := load_ok_unfold P cfg
    cases hv : validateRules P cfg.rule.enum with
    | error e =>
        rw [hv] at hu
        simp only [Except.map] at hu
        simp [loadRules, hu]
    | ok u => exact absurd (by cases u; exact hv) hval
  refine ⟨fun h => by simp [reloadRules, h],
    fun newRules h => by simp [reloadRules, h], ?_, ?_, ?_, ?_⟩
  · intro e he
    subst he
    simp [loadRules, load_error_eq]
  · intro cfg r hrp hmem hnm
    subst hrp
    obtain ⟨i, hi⟩ := exists_enum_of_mem cfg.rule hmem
    refine load_none_of_validate cfg
      (validateRules_not_ok P cfg.rule.enum i r hi ?_)
    intro hok
    obtain ⟨h1, _, _⟩ := hok
    rw [hnm] at h1
    exact Bool.noConfusion h1
  · intro cfg r pw ph pct hrp hmem hsz hstrip hparse
    subst hrp
    obtain ⟨i, hi⟩ := exists_enum_of_mem cfg.rule hmem
    refine load_none_of_validate cfg
      (validateRules_not_ok P cfg.rule.enum i r hi ?_)
    intro hok
    obtain ⟨_, _, h3⟩ := hok
    rw [hsz] at h3
    have hbad : validateSize P (.flexible pw ph) i ≠ .ok () := by
      simp [validateSize, validateDimensionString, hstrip, hparse,
        Bind.bind, Except.bind]
    exact hbad h3
  · intro cfg r s hrp hmem hcls hrx
    subst hrp
    cases hload : load P (.ok cfg) with
    | error e => simp [loadRules, hload]
    | ok c =>
        have hc : c = cfg := by
          rw [load_ok_unfold P cfg] at hload
          cases hv : validateRules P cfg.rule.enum with
          | error e => rw [hv] at hload; simp [Except.map] at hload
          | ok u =>
              rw [hv] at hload
              simp only [Except.map] at hload
              exact (Except.ok.injEq _ _).mp hload.symm
        subst hc
        obtain ⟨i, hi⟩ := exists_enum_of_mem c.rule hmem
        have herr := compileRule_error_of_bad_cls rx P r s hcls hrx
        have hnotok := compileRules_not_ok rx P c.rule.enum i r _ hi herr
        cases hcomp : compile rx P c with
        | error e => simp [loadRules, hload, hcomp]
        | ok out => exact absurd hcomp (hnotok out)

/-- Witness for C5: a configuration whose only rule has no matcher fails
to load and leaves the previous (empty) rule set unchanged, while a valid
single-rule configuration loads and replaces it. -/
theorem reload_keeps_last_good_witness :
    loadRules rejectAllRegex noParsers (Except.ok ⟨[emptyRule]⟩) = none ∧
    reloadRules []
      (loadRules rejectAllRegex noParsers (Except.ok ⟨[emptyRule]⟩)) = [] ∧
    reloadRules []
      (loadRules acceptAllRegex noParsers (Except.ok ⟨[kittyRule]⟩)) =
      [kittyCompiled] := by
  have h := reload_keeps_last_good rejectAllRegex noParsers
    (Except.ok ⟨[emptyRule]⟩) []
  have hn := h.2.2.2.1 ⟨[emptyRule]⟩ emptyRule rfl (by simp) rfl
  have h2 := reload_keeps_last_good acceptAllRegex noParsers
    (Except.ok ⟨[kittyRule]⟩) []
  exact ⟨hn, h.1 hn, h2.2.1 [kittyCompiled] rfl⟩

/-- C10: a configuration containing a rule with all five matcher fields
absent is rejected by `load` before any rule set is produced — `load`
never succeeds on it, `load_rules` yields no rule set, and when all
earlier rules pass validation the error message identifies the offending
rule by index. -/
theorem no_matcher_rejected :
    (∀ (P : Parsers) (cfg : Config) (r : Rule), r ∈ cfg.rule →
        r.noMatcher = true →
        (∀ cfg', load P (.ok cfg) ≠ .ok cfg') ∧
        (∀ rx, loadRules rx P (.ok cfg) = none)) ∧
    (∀ (P : Parsers) (cfg : Config) (k : ℕ) (hk : k < cfg.rule.length),
        (cfg.rule.get ⟨k, hk⟩).noMatcher = true →
        (∀ j (hj : j < cfg.rule.length), j < k →
          ruleChecksOk P j (cfg.rule.get ⟨j, hj⟩)) →
        load P (.ok cfg) = .error ("rule[" ++ toString k ++
          "]: no matcher (need class, title, role, process, or type)")) := by
  constructor
  · intro P cfg r hmem hnm
    obtain ⟨i, hi⟩ := exists_enum_of_mem cfg.rule hmem
    have hval : validateRules P cfg.rule.enum ≠ .ok () := by
      refine validateRules_not_ok P cfg.rule.enum i r hi ?_
      intro hok
      obtain ⟨h1, _, _⟩ := hok
      rw [hnm] at h1
      exact Bool.noConfusion h1
    have hload : ∀ cfg', load P (.ok cfg) ≠ .ok cfg' := by
      intro cfg' hl
      rw [load_ok_unfold P cfg] at hl
      cases hv : validateRules P cfg.rule.enum with
      | error e => rw [hv] at hl; simp [Except.map] at hl
      | ok u => exact hval (by cases u; exact hv)
    refine ⟨hload, fun rx => ?_⟩
    cases hl : load P (.ok cfg) with
    | error e => simp [loadRules, hl]
    | ok c => exact absurd hl (hload c)
  · intro P cfg k hk hnm hprev
    have hkl : k < cfg.rule.enum.length := by
      rw [List.enum_length]
      exact hk
    have hget : cfg.rule.enum.get ⟨k, hkl⟩ = (k, cfg.rule.get ⟨k, hk⟩) := by
      rw [List.get_eq_getElem, List.get_eq_getElem, List.getElem_enum]
    have hfirst := validateRules_first_noMatcher P cfg.rule.enum k hkl
      (by rw [hget]; exact hnm)
      (fun j hj hlt => by
        have hjl : j < cfg.rule.length := by
          rw [List.enum_length] at hj
          exact hj
        have hgj : cfg.rule.enum.get ⟨j, hj⟩ =
            (j, cfg.rule.get ⟨j, hjl⟩) := by
          rw [List.get_eq_getElem, List.get_eq_getElem, List.getElem_enum]
        rw [hgj]
        exact hprev j hjl hlt)
    rw [load_ok_unfold P cfg, hfirst]
    simp only [Except.map]
    rw [hget]

/-- Witness for C10: a two-rule configuration whose second rule lacks all
matchers is rejected with an error naming rule index 1, and a one-rule
matcher-less configuration produces no rule set. -/
theorem no_matcher_rejected_witness :
    loadRules rejectAllRegex noParsers (Except.ok ⟨[emptyRule]⟩) = none ∧
    load noParsers (Except.ok ⟨[kittyRule, emptyRule]⟩) =
      .error ("rule[" ++ toString 1 ++
        "]: no matcher (need class, title, role, process, or type)") := by
  refine ⟨(no_matcher_rejected.1 noParsers ⟨[emptyRule]⟩ emptyRule (by simp)
    rfl).2 rejectAllRegex, ?_⟩
  refine no_matcher_rejected.2 noParsers ⟨[kittyRule, emptyRule]⟩ 1
    (by norm_num) rfl ?_
  intro j hj hlt
  have hj0 : j = 0 := by omega
  subst hj0
  exact ⟨rfl, trivial, trivial⟩

end Cherrypie

